import Mathlib

/-!
# Verification of the TODO app state logic

A shallow embedding of the state and handlers of the React Native TODO app:
the root container (`src/App.js`), the goal-input form
(`src/components/GoalInput/index.js`) and the generic action button
(`src/components/GoalInput/ActionButton.js`), together with proofs of the
documented behavioural properties.
-/

/-- A goal item `{ text, id }` as stored in `listOfGoals` (`src/App.js`). -/
structure Item where
  text : String
  id : String
deriving DecidableEq, Repr

/-- Root-container state: the `listOfGoals` and `modalIsVisible` `useState`
hooks of `App` in `src/App.js`. -/
structure AppState where
  listOfGoals : List Item
  modalIsVisible : Bool
deriving DecidableEq, Repr

/-- `modalVisibility` in `src/App.js`: `setModalIsVisible(true)`. -/
def modalVisibility (s : AppState) : AppState :=
  { s with modalIsVisible := true }

/-- `handleCloseModal` in `src/App.js`: `setModalIsVisible(false)`. -/
def handleCloseModal (s : AppState) : AppState :=
  { s with modalIsVisible := false }

/-- `addNewGoals` in `src/App.js`: appends
`{ text: enteredGoal, id: Math.random().toString() }` to `listOfGoals` and then
`setModalIsVisible(false)`. The fresh random draw is passed in as `newId`. -/
def addNewGoals (enteredGoal : String) (newId : String) (s : AppState) : AppState :=
  { s with
    listOfGoals := s.listOfGoals ++ [{ text := enteredGoal, id := newId }],
    modalIsVisible := false }

/-- `deleteGoal` in `src/App.js`:
`currentGoals.filter((goal) => goal.id !== goalId)`. -/
def deleteGoal (goalId : String) (s : AppState) : AppState :=
  { s with listOfGoals := s.listOfGoals.filter (fun goal => goal.id != goalId) }

/-- Form-local state: the `enteredGoal` `useState` hook in
`src/components/GoalInput/index.js`. -/
structure FormState where
  enteredGoal : String
deriving DecidableEq, Repr

/-- `goalInputHandler` in `src/components/GoalInput/index.js`:
`setEnteredGoal(enteredText)`. -/
def goalInputHandler (enteredText : String) (f : FormState) : FormState :=
  { f with enteredGoal := enteredText }

/-- `handleAddNewGoal` in `src/components/GoalInput/index.js`:
`addGoalHanlder(enteredGoal)` — wired by `App` to `addNewGoals` — followed by
`setEnteredGoal("")`. Returns the updated app state and form state. -/
def handleAddNewGoal (newId : String) (s : AppState) (f : FormState) : AppState × FormState :=
  (addNewGoals f.enteredGoal newId s, { f with enteredGoal := "" })

/-- The Cancel button wiring in `src/components/GoalInput/index.js`:
`handler={closeModal}`, and `App` passes `closeModal={handleCloseModal}`.
The form's draft is not touched. -/
def cancelGoalInput (s : AppState) (f : FormState) : AppState × FormState :=
  (handleCloseModal s, f)

/-- A rendered pressable region: its label and the callback the platform
invokes when the region is activated. -/
structure RenderedPressable (σ : Type) where
  label : String
  onPress : σ → σ

/-- `ActionButton` in `src/components/GoalInput/ActionButton.js`: renders
`<Pressable onPress={handler}>` around the label text; the supplied handler is
installed unchanged as the press callback. The style descriptor does not
affect behaviour. -/
def ActionButton {σ : Type} (content : String) (handler : σ → σ) (_styles : String) :
    RenderedPressable σ :=
  { label := content, onPress := handler }

/-- One activation event delivered to a pressable region: the platform invokes
its `onPress` callback exactly once on the current state. -/
def activate {σ : Type} (p : RenderedPressable σ) (s : σ) : σ :=
  p.onPress s

/-- Iterated `addNewGoals`: one call per `(text, id)` entry, in order, with no
intervening operations. -/
def addMany (entries : List (String × String)) (s : AppState) : AppState :=
  entries.foldl (fun acc e => addNewGoals e.1 e.2 acc) s

/-- A user-driven mutation of the item collection: an add (which consumes one
`Math.random()` draw for its id) or a delete. -/
inductive Op where
  | add (text : String)
  | delete (id : String)
deriving DecidableEq, Repr

/-- The number of `add` operations in a sequence; each consumes one random
draw. -/
def numAdds : List Op → Nat
  | [] => 0
  | Op.add _ :: ops => numAdds ops + 1
  | Op.delete _ :: ops => numAdds ops

/-- Run a sequence of operations. `rand k` models the string produced by the
k-th `Math.random().toString()` draw of the session; the `Nat` component
counts the draws consumed so far. -/
def runOps (rand : Nat → String) : List Op → AppState × Nat → AppState × Nat
  | [], sn => sn
  | Op.add t :: ops, (s, n) => runOps rand ops (addNewGoals t (rand n) s, n + 1)
  | Op.delete i :: ops, (s, n) => runOps rand ops (deleteGoal i s, n)

/-- The initial app state: `useState([])` and `useState(false)` in
`src/App.js`. -/
def initialState : AppState :=
  { listOfGoals := [], modalIsVisible := false }

/-- Membership in a filtered goal list gives satisfaction of the predicate. -/
lemma mem_deleteGoal_ne (goalId : String) (s : AppState) :
    ∀ g ∈ (deleteGoal goalId s).listOfGoals, (g.id != goalId) = true := by
  intro g hg
  simp only [deleteGoal] at hg
  exact (List.mem_filter.mp hg).2

/-- Filtering by an id that no goal carries leaves the list unchanged. -/
lemma filter_eq_self_of_absent (goalId : String) (l : List Item)
    (h : ∀ g ∈ l, g.id ≠ goalId) :
    l.filter (fun goal => goal.id != goalId) = l :=
  List.filter_eq_self.mpr fun g hg => by simpa using h g hg

/-- Freshness invariant preservation: running any operation sequence from a
state whose ids are distinct draws `rand j`, `j < n`, with all relevant draws
pairwise distinct, keeps the ids of the collection duplicate-free. -/
lemma runOps_nodup_aux (rand : Nat → String) :
    ∀ (ops : List Op) (s : AppState) (n : Nat),
      (∀ i, i < n + numAdds ops → ∀ j, j < n + numAdds ops → rand i = rand j → i = j) →
      (s.listOfGoals.map Item.id).Nodup →
      (∀ g ∈ s.listOfGoals, ∃ j, j < n ∧ g.id = rand j) →
      ((runOps rand ops (s, n)).1.listOfGoals.map Item.id).Nodup := by
  intro ops
  induction ops with
  | nil =>
    intro s n _ hnd _
    simpa [runOps] using hnd
  | cons op ops ih =>
    cases op with
    | add t =>
      intro s n hinj hnd hfrom
      simp only [runOps]
      have hcount : n + numAdds (Op.add t :: ops) = (n + 1) + numAdds ops := by
        simp only [numAdds]; omega
      apply ih (addNewGoals t (rand n) s) (n + 1)
      · intro i hi j hj heq
        exact hinj i (by omega) j (by omega) heq
      · have hnotin : ∀ g ∈ s.listOfGoals, ¬ g.id = rand n := by
          intro g hg hgid
          rcases hfrom g hg with ⟨j, hj, hjid⟩
          have : j = n := hinj j (by omega) n (by omega) (by rw [← hjid]; exact hgid)
          omega
        simpa [addNewGoals, List.nodup_append] using ⟨hnd, hnotin⟩
      · intro g hg
        simp only [addNewGoals, List.mem_append, List.mem_singleton] at hg
        rcases hg with hg | hg
        · rcases hfrom g hg with ⟨j, hj, hjid⟩
          exact ⟨j, by omega, hjid⟩
        · exact ⟨n, by omega, by rw [hg]⟩
    | delete i =>
      intro s n hinj hnd hfrom
      simp only [runOps]
      apply ih (deleteGoal i s) n
      · intro a ha b hb heq
        exact hinj a (by simpa [numAdds] using ha) b (by simpa [numAdds] using hb) heq
      · exact hnd.sublist (List.Sublist.map Item.id (List.filter_sublist s.listOfGoals))
      · intro g hg
        exact hfrom g (List.mem_of_mem_filter hg)

/-- C2: for every string `text` (including the empty string), `addNewGoals`
appends the new item `{ text, id }` at the end of the collection and sets the
visibility flag to false; being a total function, it always succeeds. -/
theorem addNewGoals_appends_and_closes (t newId : String) (s : AppState) :
    (addNewGoals t newId s).listOfGoals = s.listOfGoals ++ [{ text := t, id := newId }] ∧
    (addNewGoals t newId s).modalIsVisible = false :=
  ⟨rfl, rfl⟩

/-- C3: a form submission hands the current draft to the parent's
`addNewGoals` and then clears the draft, so afterwards the visibility flag is
false, the draft is empty, and the draft text has been appended to the
collection — regardless of the prior modal flag and draft. -/
theorem handleAddNewGoal_submits_and_clears (newId : String) (s : AppState) (f : FormState) :
    (handleAddNewGoal newId s f).1 = addNewGoals f.enteredGoal newId s ∧
    (handleAddNewGoal newId s f).1.modalIsVisible = false ∧
    (handleAddNewGoal newId s f).1.listOfGoals =
      s.listOfGoals ++ [{ text := f.enteredGoal, id := newId }] ∧
    (handleAddNewGoal newId s f).2.enteredGoal = "" :=
  ⟨rfl, rfl, rfl, rfl⟩

/-- C4: cancelling the form invokes the parent's `handleCloseModal`, so the
visibility flag becomes false, while the draft text is left exactly as it was
and the item collection is not mutated. -/
theorem cancelGoalInput_closes_preserving_draft (s : AppState) (f : FormState) :
    (cancelGoalInput s f).1.modalIsVisible = false ∧
    (cancelGoalInput s f).2 = f ∧
    (cancelGoalInput s f).1.listOfGoals = s.listOfGoals :=
  ⟨rfl, rfl, rfl⟩

/-- C8: `modalVisibility` (open) and `handleCloseModal` (close) are idempotent
on the visibility flag — opening twice equals opening once and leaves the flag
true, closing always leaves the flag false (in particular when it was already
false) — and neither touches the item collection. -/
theorem modal_toggles_idempotent (s : AppState) :
    modalVisibility (modalVisibility s) = modalVisibility s ∧
    (modalVisibility s).modalIsVisible = true ∧
    (modalVisibility s).listOfGoals = s.listOfGoals ∧
    handleCloseModal (handleCloseModal s) = handleCloseModal s ∧
    (handleCloseModal s).modalIsVisible = false ∧
    (handleCloseModal s).listOfGoals = s.listOfGoals :=
  ⟨rfl, rfl, rfl, rfl, rfl, rfl⟩

/-- C9: an `ActionButton` installs the supplied callback verbatim as the press
handler, so each activation is exactly one invocation of the callback on the
current state, with nothing added by the button. -/
theorem actionButton_forwards_activation {σ : Type} (content : String) (handler : σ → σ)
    (stylesArg : String) (s : σ) :
    activate (ActionButton content handler stylesArg) s = handler s :=
  rfl

/-- C1: when the target id occurs on exactly one item (`x`, the expected-only
match, so no item before or after it carries that id), `deleteGoal` removes
exactly that item; all other items are unaffected and keep their relative
order. -/
theorem deleteGoal_removes_match (pre post : List Item) (x : Item) (m : Bool)
    (hpre : ∀ g ∈ pre, g.id ≠ x.id) (hpost : ∀ g ∈ post, g.id ≠ x.id) :
    (deleteGoal x.id ⟨pre ++ x :: post, m⟩).listOfGoals = pre ++ post := by
  simp only [deleteGoal, List.filter_append, List.filter_cons, bne_self_eq_false]
  rw [filter_eq_self_of_absent x.id pre hpre, filter_eq_self_of_absent x.id post hpost]
  simp

/-- Witness for C1 at a concrete three-item collection. -/
theorem deleteGoal_removes_match_witness :
    (∀ g ∈ [Item.mk "x" "1"], g.id ≠ (Item.mk "y" "2").id) ∧
    (∀ g ∈ [Item.mk "z" "3"], g.id ≠ (Item.mk "y" "2").id) ∧
    (deleteGoal (Item.mk "y" "2").id
        ⟨[Item.mk "x" "1"] ++ Item.mk "y" "2" :: [Item.mk "z" "3"], false⟩).listOfGoals =
      [Item.mk "x" "1"] ++ [Item.mk "z" "3"] :=
  ⟨by decide, by decide,
    deleteGoal_removes_match [Item.mk "x" "1"] [Item.mk "z" "3"] (Item.mk "y" "2") false
      (by decide) (by decide)⟩

/-- C5: deleting an id carried by no item of the collection leaves the state
unchanged (same length, contents and order); the operation is total, so no
error is possible. -/
theorem deleteGoal_absent_unchanged (goalId : String) (s : AppState)
    (h : ∀ g ∈ s.listOfGoals, g.id ≠ goalId) :
    deleteGoal goalId s = s := by
  simp only [deleteGoal]
  rw [filter_eq_self_of_absent goalId s.listOfGoals h]

/-- Witness for C5: deleting an absent id from a one-item collection. -/
theorem deleteGoal_absent_unchanged_witness :
    (∀ g ∈ (AppState.mk [Item.mk "x" "1"] true).listOfGoals, g.id ≠ "9") ∧
    deleteGoal "9" (AppState.mk [Item.mk "x" "1"] true) = AppState.mk [Item.mk "x" "1"] true :=
  ⟨by decide, deleteGoal_absent_unchanged "9" (AppState.mk [Item.mk "x" "1"] true) (by decide)⟩

/-- C6: a sequence of `addNewGoals` calls with no intervening deletions grows
the collection by exactly the number of calls, appending the new items at the
tail in call order, with the prior items untouched and unreordered. -/
theorem addMany_appends_in_order (entries : List (String × String)) (s : AppState) :
    (addMany entries s).listOfGoals =
      s.listOfGoals ++ entries.map (fun e => { text := e.1, id := e.2 }) ∧
    (addMany entries s).listOfGoals.length = s.listOfGoals.length + entries.length := by
  have key : ∀ (es : List (String × String)) (t : AppState),
      (addMany es t).listOfGoals =
        t.listOfGoals ++ es.map (fun e => { text := e.1, id := e.2 }) := by
    intro es
    induction es with
    | nil => intro t; simp [addMany]
    | cons e es ih =>
      intro t
      simp only [addMany, List.foldl_cons] at *
      rw [ih]
      simp [addNewGoals]
  refine ⟨key entries s, ?_⟩
  rw [key entries s]
  simp

/-- C10: `deleteGoal` filters out every item whose id equals the argument
(even duplicates), so a second application changes nothing: it is
idempotent. -/
theorem deleteGoal_idempotent (goalId : String) (s : AppState) :
    deleteGoal goalId (deleteGoal goalId s) = deleteGoal goalId s ∧
    ((deleteGoal goalId s).listOfGoals.all fun g => g.id != goalId) = true := by
  constructor
  · have h : (deleteGoal goalId s).listOfGoals.filter (fun goal => goal.id != goalId) =
        (deleteGoal goalId s).listOfGoals :=
      List.filter_eq_self.mpr (mem_deleteGoal_ne goalId s)
    simp only [deleteGoal] at h ⊢
    rw [h]
  · exact List.all_eq_true.mpr (mem_deleteGoal_ne goalId s)

/-- C7, as stated, is false: with a `Math.random()` stream that repeats a
value, two `add` operations from the empty collection reach a state in which
both items share the id `"0.5"`. -/
theorem runOps_shared_id_cex :
    ¬ (((runOps (fun _ => "0.5") [Op.add "a", Op.add "b"]
        (initialState, 0)).1.listOfGoals.map Item.id).Nodup) := by
  decide

/-- C7 (amended): provided the `Math.random().toString()` draws consumed by
the `add` operations are pairwise distinct, every state reachable by a
sequence of add and delete operations from the empty collection has pairwise
distinct ids. -/
theorem runOps_nodup_of_distinct_draws (rand : Nat → String) (ops : List Op)
    (h : ∀ i, i < numAdds ops → ∀ j, j < numAdds ops → rand i = rand j → i = j) :
    ((runOps rand ops (initialState, 0)).1.listOfGoals.map Item.id).Nodup := by
  apply runOps_nodup_aux rand ops initialState 0
  · simpa using h
  · simp [initialState]
  · intro g hg
    simp [initialState] at hg

/-- Witness for the amended C7: two adds with distinct draws produce distinct
ids. -/
theorem runOps_nodup_of_distinct_draws_witness :
    (∀ i, i < numAdds [Op.add "a", Op.add "b"] → ∀ j, j < numAdds [Op.add "a", Op.add "b"] →
      (if i = 0 then "x" else "y") = (if j = 0 then "x" else "y") → i = j) ∧
    ((runOps (fun n => if n = 0 then "x" else "y") [Op.add "a", Op.add "b"]
        (initialState, 0)).1.listOfGoals.map Item.id).Nodup :=
  ⟨by decide,
    runOps_nodup_of_distinct_draws (fun n => if n = 0 then "x" else "y")
      [Op.add "a", Op.add "b"] (by decide)⟩
